import Mathlib

/-!
Shallow embedding of the content-structuring engine of `main2.py`
(class `PowerPointProcessor`): classification (`_is_tabular_data`,
`_has_bullet_points`), parsing (`_parse_table_data`,
`_extract_bullet_points`, `_structure_paragraphs`), titling
(`_extract_title`), the orchestrating `_analyze_and_structure_text`,
and the image-need heuristic (`_determine_image_need`).

Strings are modelled through their character lists (`String.data`);
Python regular expressions are translated into explicit character-list
scans.  `\s`, `str.strip()` and `str.lower()` are modelled for the six
ASCII whitespace characters resp. ASCII letters, which cover every
character class the regexes of the source distinguish.  Fallible code
(`_extract_bullet_points` can raise `ValueError` through `lines.index`)
is modelled with `Except`.
-/

/-- The six ASCII characters matched by Python's `\s` and stripped by
`str.strip()`: space, tab, newline, carriage return, vertical tab, form feed. -/
def isPySpace (c : Char) : Bool :=
  c == ' ' || c == '\t' || c == '\n' || c == '\r' || c == Char.ofNat 11 || c == Char.ofNat 12

/-- Python `str.strip()` on a character list. -/
def pyStripL (cs : List Char) : List Char :=
  ((cs.dropWhile isPySpace).reverse.dropWhile isPySpace).reverse

/-- Python `str.split(sep)` for a one-character separator. -/
def splitOnChar (sep : Char) : List Char → List (List Char)
  | [] => [[]]
  | c :: rest =>
    if c == sep then [] :: splitOnChar sep rest
    else
      match splitOnChar sep rest with
      | [] => [[c]]
      | p :: ps => (c :: p) :: ps

/-- Python `str.split(chr(10) + chr(10))`: split on the two-character
separator of two newlines, leftmost non-overlapping matches. -/
def splitOnNN : List Char → List (List Char)
  | [] => [[]]
  | '\n' :: '\n' :: rest => [] :: splitOnNN rest
  | c :: rest =>
    match splitOnNN rest with
    | [] => [[c]]
    | p :: ps => (c :: p) :: ps

/-- Python `chr(10).join(content)`. -/
def joinNL : List String → String
  | [] => ""
  | [s] => s
  | s :: rest => s ++ "\n" ++ joinNL rest

/-- Scan for the regex `:\s*\d+` continuation: optional whitespace, then a digit. -/
def wsThenDigit : List Char → Bool
  | [] => false
  | c :: rest => if c.isDigit then true else if isPySpace c then wsThenDigit rest else false

/-- `re.search(":\s*\d+", text)`: a colon, optional whitespace (newlines
included), then a digit, anywhere in the text. -/
def hasColonNum : List Char → Bool
  | [] => false
  | c :: rest => (c == ':' && wsThenDigit rest) || hasColonNum rest

/-- Tail of the regex `\d+%`: a digit run immediately closed by a percent sign. -/
def pctClose : List Char → Bool
  | [] => false
  | c :: rest => c == '%' || (c.isDigit && pctClose rest)

/-- The regex fragment `\d+%`: one or more digits then a percent sign. -/
def digitsPct : List Char → Bool
  | [] => false
  | c :: rest => c.isDigit && pctClose rest

/-- `re.search("\d+\.\d+%", text)`: some digit followed by a dot,
one or more digits, and a percent sign. -/
def hasPct : List Char → Bool
  | [] => false
  | c :: rest =>
    (match rest with
     | '.' :: rest2 => c.isDigit && digitsPct rest2
     | _ => false) || hasPct rest

/-- `PowerPointProcessor._is_tabular_data`: any of the four regex signals —
`\t.*\t` (two tabs on one line), `\|.*\|` (two pipes on one line),
`:\s*\d+`, `\d+\.\d+%`. -/
def is_tabular_data (text : String) : Bool :=
  let lines := splitOnChar '\n' text.data
  lines.any (fun l => decide (2 ≤ l.count '\t'))
    || lines.any (fun l => decide (2 ≤ l.count '|'))
    || hasColonNum text.data
    || hasPct text.data

/-- The character class of the bullet regex `^[\‚Ä¢\-\*]\s` of the source.
The source file literally holds the three mojibake characters
U+201A, U+00C4, U+00A2 (a mis-decoded bullet glyph) besides `-` and `*`. -/
def bulletChar (c : Char) : Bool :=
  c == Char.ofNat 8218 || c == Char.ofNat 196 || c == Char.ofNat 162 || c == '-' || c == '*'

/-- `re.match("^[\‚Ä¢\-\*]\s", line)`: a bullet character then one whitespace. -/
def bulletMarked : List Char → Bool
  | c :: d :: _ => bulletChar c && isPySpace d
  | _ => false

/-- Tail scan of `^\d+\.\s`: remaining digits, then a dot and one whitespace. -/
def numTail : List Char → Bool
  | '.' :: d :: _ => isPySpace d
  | c :: rest => c.isDigit && numTail rest
  | [] => false

/-- `re.match("^\d+\.\s", line)`: digits, a dot, then one whitespace. -/
def numMarked : List Char → Bool
  | c :: rest => c.isDigit && numTail rest
  | [] => false

/-- `re.match("^[a-zA-Z]\.\s", line)`: one ASCII letter, a dot, one whitespace. -/
def letterMarked : List Char → Bool
  | c :: '.' :: d :: _ => c.isAlpha && isPySpace d
  | _ => false

/-- A line matching any of the three bullet-point patterns of the source. -/
def markedAny (s : List Char) : Bool :=
  bulletMarked s || numMarked s || letterMarked s

/-- `PowerPointProcessor._has_bullet_points`: split on newlines, count lines whose
stripped form matches one of the three marker patterns, and compare
`bullet_lines > len(lines) * 0.3`.  For an integer count `b` and the IEEE-754
double product `n * 0.3`, `b > n * 0.3` holds exactly when `10 * b > 3 * n`:
for `n` not divisible by 10 the exact value `0.3 * n` is at distance at least
`0.1` from every integer, far beyond the rounding error, and for `n = 10 * m`
the double product rounds to exactly `3 * m` (the error `m / 2 ^ 53` is below
half an ulp of `3 * m`), so the comparison is modelled by the exact rational one. -/
def has_bullet_points (text : String) : Bool :=
  let lines := splitOnChar '\n' text.data
  if lines.isEmpty then false
  else
    let bulletLines := (lines.filter (fun l => markedAny (pyStripL l))).length
    decide (3 * lines.length < 10 * bulletLines)

/-- Python `str.endswith(".")` on a non-empty string: the last character is a period. -/
def endsPeriod (cs : List Char) : Bool :=
  match cs.getLast? with
  | some c => c == '.'
  | none => false

/-- `PowerPointProcessor._extract_title`: an empty first line gives
"Slide Content"; a line shorter than 80 characters that does not end with a
period is returned verbatim; anything else gives "Key Points". -/
def extract_title (first_line : String) : String :=
  if first_line.data.isEmpty then "Slide Content"
  else if first_line.data.length < 80 && !(endsPeriod first_line.data) then first_line
  else "Key Points"

/-- Maximal runs of characters agreeing on `isPySpace`, used to model the
regex separator `\s{2,}` of `_parse_table_data`. -/
def groupRuns : List Char → List (List Char)
  | [] => []
  | c :: rest =>
    match groupRuns rest with
    | [] => [[c]]
    | g :: gs =>
      match g with
      | d :: _ => if isPySpace c == isPySpace d then (c :: g) :: gs else [c] :: g :: gs
      | [] => [[c]]

/-- A run acting as a separator for `\s{2,}`: whitespace of length at least two. -/
def isSepRun (g : List Char) : Bool :=
  (match g with | d :: _ => isPySpace d | [] => false) && decide (2 ≤ g.length)

/-- Reassemble the runs of `groupRuns` into the parts cut at separator runs. -/
def joinRuns : List (List Char) → List Char → List (List Char)
  | [], cur => [cur]
  | g :: rest, cur => if isSepRun g then cur :: joinRuns rest [] else joinRuns rest (cur ++ g)

/-- Split a newline-free segment at maximal whitespace runs of length two or more. -/
def splitWsRuns (cs : List Char) : List (List Char) :=
  joinRuns (groupRuns cs) []

/-- `re.split("\s{2,}|:", line)`: the colon separators and the long whitespace
runs are disjoint, so splitting on colons first and then on whitespace runs
reproduces the left-to-right regex split. -/
def splitSC (cs : List Char) : List (List Char) :=
  (splitOnChar ':' cs).flatMap splitWsRuns

/-- The cell split of one stripped line of `_parse_table_data`: separator
priority tab, else pipe, else whitespace-run/colon with blank cells dropped;
every cell stripped. -/
def rowOfLine (line : List Char) : List (List Char) :=
  if line.contains '\t' then (splitOnChar '\t' line).map pyStripL
  else if line.contains '|' then (splitOnChar '|' line).map pyStripL
  else ((splitSC line).map pyStripL).filter (fun c => !c.isEmpty)

/-- `PowerPointProcessor._parse_table_data`: strip all lines, keep the non-empty
ones, drop the first, split each remaining line into cells, and keep only rows
with more than one cell. -/
def parse_table_data (text : String) : List (List String) :=
  let lines := ((splitOnChar '\n' text.data).map pyStripL).filter (fun l => !l.isEmpty)
  let rows := (lines.drop 1).foldl (fun acc line =>
    if 1 < (rowOfLine line).length then acc ++ [rowOfLine line] else acc) []
  rows.map (fun r => r.map String.mk)

/-- Loop of `PowerPointProcessor._extract_bullet_points`.  `all` is the full
line list (Python's `lines`), against which the source evaluates
`lines.index(line)` on the already-stripped line: the first occurrence of the
stripped text among the raw lines, a `ValueError` (modelled as `Except.error`)
when it does not occur.  An unmarked non-blank line is appended exactly when a
marker line occurs before that first occurrence. -/
def ebpGo (all : List (List Char)) : List (List Char) → List (List Char) →
    Except Unit (List (List Char))
  | [], acc => Except.ok acc
  | l :: rest, acc =>
    let s := pyStripL l
    if bulletMarked s then ebpGo all rest (acc ++ [s.drop 2])
    else if numMarked s then ebpGo all rest (acc ++ [(s.dropWhile Char.isDigit).drop 2])
    else if letterMarked s then ebpGo all rest (acc ++ [s.drop 3])
    else if s.isEmpty then ebpGo all rest acc
    else
      match all.findIdx? (fun l2 => l2 == s) with
      | none => Except.error ()
      | some j =>
        if (all.take j).any (fun l2 => markedAny (pyStripL l2)) then
          ebpGo all rest (acc ++ [s])
        else ebpGo all rest acc

/-- `PowerPointProcessor._extract_bullet_points`: strip each line, remove a
recognized bullet/number/letter marker (the marker characters and one
whitespace character, as `re.sub` with the anchored patterns removes), skip a
non-blank unmarked line when no marker line precedes `lines.index(line)`,
keep it otherwise, and fall back to the sentinel point when nothing survives. -/
def extract_bullet_points (text : String) : Except Unit (List String) :=
  let lines := splitOnChar '\n' text.data
  match ebpGo lines lines [] with
  | Except.error e => Except.error e
  | Except.ok pts =>
    Except.ok (if pts.isEmpty then ["Content point"] else pts.map String.mk)

/-- `PowerPointProcessor._structure_paragraphs`: blank-line split, else
single-newline split, else the whole text as one paragraph. -/
def structure_paragraphs (text : String) : List String :=
  let ps1 := ((splitOnNN text.data).map pyStripL).filter (fun p => !p.isEmpty)
  let ps2 :=
    if ps1.isEmpty then ((splitOnChar '\n' text.data).map pyStripL).filter (fun p => !p.isEmpty)
    else ps1
  if ps2.isEmpty then [text] else ps2.map String.mk

/-- The four dict shapes produced by `_analyze_and_structure_text`. -/
inductive SlideContent where
  | empty (title : String)
  | table (title : String) (data : List (List String))
  | bulletList (title : String) (points : List String)
  | structuredText (title : String) (content : List String)
deriving DecidableEq

/-- The Python `"type"` field of the structured dict. -/
def ctypeOf : SlideContent → String
  | SlideContent.empty _ => "empty"
  | SlideContent.table _ _ => "table"
  | SlideContent.bulletList _ _ => "bullet_list"
  | SlideContent.structuredText _ _ => "structured_text"

/-- The Python `"title"` field of the structured dict. -/
def titleOf : SlideContent → String
  | SlideContent.empty t => t
  | SlideContent.table t _ => t
  | SlideContent.bulletList t _ => t
  | SlideContent.structuredText t _ => t

/-- `PowerPointProcessor._analyze_and_structure_text`: empty content list short
circuits to the empty variant; otherwise the joined text is classified as
tabular, else bulleted, else prose, and the matching parser runs.  The
`Except` propagates the `ValueError` that `_extract_bullet_points` can raise. -/
def analyze_and_structure_text (content : List String) : Except Unit SlideContent :=
  if content.isEmpty then Except.ok (SlideContent.empty "Empty Slide")
  else if is_tabular_data (joinNL content) then
    Except.ok (SlideContent.table (extract_title (content.headD "Data Table"))
      (parse_table_data (joinNL content)))
  else if has_bullet_points (joinNL content) then
    match extract_bullet_points (joinNL content) with
    | Except.error e => Except.error e
    | Except.ok pts =>
      Except.ok (SlideContent.bulletList (extract_title (content.headD "Key Points")) pts)
  else
    Except.ok (SlideContent.structuredText (extract_title (content.headD "Content"))
      (structure_paragraphs (joinNL content)))

/-- The keyword vocabulary of `PowerPointProcessor._determine_image_need`. -/
def image_keywords : List String :=
  ["process", "workflow", "diagram", "chart", "graph", "visual",
   "example", "comparison", "analysis", "data", "statistics",
   "architecture", "design", "model", "framework", "structure",
   "timeline", "roadmap", "overview", "summary", "business",
   "strategy", "growth", "performance", "results", "metrics"]

/-- Substring test (Python's `in` on strings), pattern first. -/
def containsSub (p : List Char) : List Char → Bool
  | [] => p.isPrefixOf []
  | c :: t => p.isPrefixOf (c :: t) || containsSub p t

/-- Python `str.lower()` for one character, ASCII range. -/
def lowerChar (c : Char) : Char :=
  if 65 ≤ c.toNat && c.toNat ≤ 90 then Char.ofNat (c.toNat + 32) else c

/-- Python `str.lower()`, ASCII range. -/
def lowerStr (s : String) : String :=
  String.mk (s.data.map lowerChar)

/-- The quote character Python `repr` picks for a string: double quote when the
string holds a single quote but no double quote, else single quote. -/
def pyQuote (s : List Char) : Char :=
  if s.contains (Char.ofNat 39) && !(s.contains (Char.ofNat 34)) then Char.ofNat 34
  else Char.ofNat 39

/-- Lower-case hex digit. -/
def hexDigitChar (n : Nat) : Char :=
  if n < 10 then Char.ofNat (48 + n) else Char.ofNat (87 + n)

/-- Python `repr` of one character inside a string quoted by `q`: escape the
backslash, the active quote, newline, carriage return, tab, and remaining
ASCII control characters; other characters are kept. -/
def pyReprChar (q : Char) (c : Char) : List Char :=
  if c == '\\' then ['\\', '\\']
  else if c == q then ['\\', q]
  else if c == '\n' then ['\\', 'n']
  else if c == '\r' then ['\\', 'r']
  else if c == '\t' then ['\\', 't']
  else if c.toNat < 32 || c.toNat == 127 then
    ['\\', 'x', hexDigitChar (c.toNat / 16), hexDigitChar (c.toNat % 16)]
  else [c]

/-- Python `repr` of a string (ASCII behaviour). -/
def pyReprStr (s : String) : String :=
  let q := pyQuote s.data
  String.mk (q :: s.data.flatMap (pyReprChar q) ++ [q])

/-- Join with a comma and a space, as Python renders list elements. -/
def joinCommaSp : List String → String
  | [] => ""
  | [s] => s
  | s :: rest => s ++ ", " ++ joinCommaSp rest

/-- Python `str` of a list of strings. -/
def pyReprStrList (xs : List String) : String :=
  "[" ++ joinCommaSp (xs.map pyReprStr) ++ "]"

/-- Python `str` of a list of lists of strings. -/
def pyReprStrListList (xss : List (List String)) : String :=
  "[" ++ joinCommaSp (xss.map pyReprStrList) ++ "]"

/-- Python `str(structured_content)`: the dict rendering with insertion-ordered
keys, as `_determine_image_need` stringifies the structured record. -/
def pyStr : SlideContent → String
  | SlideContent.empty t =>
    "\x7b\x27type\x27: \x27empty\x27, \x27title\x27: " ++ pyReprStr t ++ ", \x27data\x27: []\x7d"
  | SlideContent.table t d =>
    "\x7b\x27type\x27: \x27table\x27, \x27title\x27: " ++ pyReprStr t ++ ", \x27data\x27: "
      ++ pyReprStrListList d ++ "\x7d"
  | SlideContent.bulletList t p =>
    "\x7b\x27type\x27: \x27bullet_list\x27, \x27title\x27: " ++ pyReprStr t ++ ", \x27points\x27: "
      ++ pyReprStrList p ++ "\x7d"
  | SlideContent.structuredText t c =>
    "\x7b\x27type\x27: \x27structured_text\x27, \x27title\x27: " ++ pyReprStr t
      ++ ", \x27content\x27: " ++ pyReprStrList c ++ "\x7d"

/-- The number of vocabulary keywords occurring in the lower-cased rendering of
the structured record (`keyword_matches` of `_determine_image_need`). -/
def countKeywordHits (sc : SlideContent) : Nat :=
  (image_keywords.filter (fun k => containsSub k.data (lowerStr (pyStr sc)).data)).length

/-- `PowerPointProcessor._determine_image_need`: tables and bullet lists always
need an image; otherwise at least two keyword hits over `str(record).lower()`. -/
def determine_image_need (sc : SlideContent) : Bool :=
  let nMatches := countKeywordHits sc
  if ctypeOf sc == "table" || ctypeOf sc == "bullet_list" then true
  else decide (2 ≤ nMatches)

/-- Claim-side count: lines whose trimmed form starts with a recognized
bullet, number-dot, or letter-dot marker. -/
def markerLineCount (text : String) : Nat :=
  ((splitOnChar '\n' text.data).filter (fun l => markedAny (pyStripL l))).length

/-- Claim-side count: lines that are non-empty. -/
def nonEmptyLineCount (text : String) : Nat :=
  ((splitOnChar '\n' text.data).filter (fun l => !l.isEmpty)).length

/-- Total number of lines of the newline split. -/
def totalLineCount (text : String) : Nat :=
  (splitOnChar '\n' text.data).length

/-- Point contributed by one raw line of the bullet parser, stated
declaratively: marked lines lose their marker; a non-blank unmarked line is
kept exactly when a marker line occurs before the first occurrence of its
trimmed text among the raw lines. -/
def specPointOf (all : List (List Char)) (l : List Char) : Option (List Char) :=
  let s := pyStripL l
  if bulletMarked s then some (s.drop 2)
  else if numMarked s then some ((s.dropWhile Char.isDigit).drop 2)
  else if letterMarked s then some (s.drop 3)
  else if s.isEmpty then none
  else
    match all.findIdx? (fun l2 => l2 == s) with
    | none => none
    | some j =>
      if (all.take j).any (fun l2 => markedAny (pyStripL l2)) then some s else none

/-- A raw line on which the bullet parser raises: non-blank, unmarked, and its
trimmed text occurs nowhere among the raw lines. -/
def specBadLine (all : List (List Char)) (l : List Char) : Bool :=
  let s := pyStripL l
  !(markedAny s) && !s.isEmpty && (all.findIdx? (fun l2 => l2 == s)).isNone

/-- Declarative restatement of the bullet parser used by the amended
header-before-first-bullet claim. -/
def spec_bullet_points (text : String) : Except Unit (List String) :=
  let lines := splitOnChar '\n' text.data
  if lines.any (specBadLine lines) then Except.error ()
  else
    let pts := lines.filterMap (specPointOf lines)
    Except.ok (if pts.isEmpty then ["Content point"] else pts.map String.mk)

/-- Cell split of one stripped table line as the claim words it: separator
priority tab, else pipe, else whitespace-run/colon (that branch dropping blank
cells); the row is kept only with more than one cell. -/
def specRowOf (line : List Char) : Option (List String) :=
  let row :=
    if line.contains '\t' then (splitOnChar '\t' line).map pyStripL
    else if line.contains '|' then (splitOnChar '|' line).map pyStripL
    else ((splitSC line).map pyStripL).filter (fun c => !c.isEmpty)
  if 1 < row.length then some (row.map String.mk) else none

/-- The table rows as the claim describes them: drop the first non-blank
stripped line, then keep the kept cell splits of the remaining lines. -/
def specTableRows (text : String) : List (List String) :=
  ((((splitOnChar '\n' text.data).map pyStripL).filter
    (fun l => !l.isEmpty)).drop 1).filterMap specRowOf

theorem splitOnChar_ne_nil (sep : Char) (cs : List Char) : splitOnChar sep cs ≠ [] := by
  cases cs with
  | nil => simp [splitOnChar]
  | cons c rest =>
    simp only [splitOnChar]
    split
    · simp
    · split <;> simp

theorem containsSub_iff (p : List Char) :
    ∀ s : List Char, containsSub p s = true ↔ p <:+: s := by
  intro s
  induction s with
  | nil => simp [containsSub, List.isPrefixOf_iff_prefix]
  | cons c t ih =>
    simp [containsSub, List.isPrefixOf_iff_prefix, ih, List.infix_cons_iff]

theorem two_le_filter_length {α : Type} [DecidableEq α] (p : α → Bool) (l : List α)
    (a b : α) (ha : a ∈ l) (hb : b ∈ l) (hab : a ≠ b)
    (hpa : p a = true) (hpb : p b = true) : 2 ≤ (l.filter p).length := by
  have ha2 : a ∈ l.filter p := List.mem_filter.2 ⟨ha, hpa⟩
  have hb2 : b ∈ l.filter p := List.mem_filter.2 ⟨hb, hpb⟩
  have hsub : ({a, b} : Finset α) ⊆ (l.filter p).toFinset := by
    intro x hx
    rcases Finset.mem_insert.1 hx with rfl | hx2
    · exact List.mem_toFinset.2 ha2
    · rcases Finset.mem_singleton.1 hx2 with rfl
      exact List.mem_toFinset.2 hb2
  calc 2 = ({a, b} : Finset α).card := (Finset.card_pair hab).symm
    _ ≤ (l.filter p).toFinset.card := Finset.card_le_card hsub
    _ ≤ (l.filter p).length := (l.filter p).toFinset_card_le

/-- C1: refuted as stated — the structuring entry point is not total.  On the
single slide text `"- x\n y"` (a bullet line followed by an indented unmarked
line) the source raises `ValueError`: `_extract_bullet_points` evaluates
`lines.index(line)` on the stripped line `"y"`, which does not occur among the
raw lines `["- x", " y"]`.  The embedding returns the error value there. -/
theorem C1_structuring_raises :
    analyze_and_structure_text ["- x\n y"] = Except.error () := rfl

/-- C10: the Title Extractor is idempotent — each of its three possible
outputs (the empty-input label, a verbatim short period-free line, and the
generic label) is mapped to itself by a second application. -/
theorem C10_title_idempotent (s : String) :
    extract_title (extract_title s) = extract_title s := by
  by_cases h1 : s.data.isEmpty = true
  · have hs : extract_title s = "Slide Content" := by
      unfold extract_title; rw [if_pos h1]
    rw [hs]; rfl
  · by_cases h2 : (decide (s.data.length < 80) && !(endsPeriod s.data)) = true
    · have hs : extract_title s = s := by
        unfold extract_title; rw [if_neg h1, if_pos h2]
      rw [hs]; exact hs
    · have hs : extract_title s = "Key Points" := by
        unfold extract_title; rw [if_neg h1, if_neg h2]
      rw [hs]; rfl

/-- C2 counterexample: a tabular slide whose first text block ends with a
period is titled with the fallback label "Key Points", not the
kind-appropriate label "Data Table" the claim names for tables. -/
theorem C2_counterexample :
    analyze_and_structure_text ["Sales results.", "a | b | c"]
      = Except.ok (SlideContent.table "Key Points" [["a", "b", "c"]]) := rfl

/-- C3 counterexample: a 10-line text with three marker lines and seven empty
lines has marker count exceeding 30% of its non-empty lines (3 of 3), yet the
classifier does not call it bulleted, because the source divides by the total
line count including empty lines. -/
theorem C3_counterexample :
    has_bullet_points "- a\n- b\n- c\n\n\n\n\n\n\n" = false
    ∧ is_tabular_data "- a\n- b\n- c\n\n\n\n\n\n\n" = false
    ∧ nonEmptyLineCount "- a\n- b\n- c\n\n\n\n\n\n\n" = 3
    ∧ markerLineCount "- a\n- b\n- c\n\n\n\n\n\n\n" = 3
    ∧ totalLineCount "- a\n- b\n- c\n\n\n\n\n\n\n" = 10
    ∧ 3 * nonEmptyLineCount "- a\n- b\n- c\n\n\n\n\n\n\n"
        < 10 * markerLineCount "- a\n- b\n- c\n\n\n\n\n\n\n" := by
  refine ⟨rfl, rfl, rfl, rfl, rfl, by decide⟩

/-- C4 counterexample: in `"X\n- a\nX"` the second `X` follows the first
recognized bullet line, so the claim keeps it; the source drops it, because
`lines.index` resolves both occurrences of `X` to the first one, which
precedes every bullet. -/
theorem C4_counterexample :
    extract_bullet_points "X\n- a\nX" = Except.ok ["a"] := rfl

/-- C9 counterexample: the keyword "structure" occurring in the actual title
of a prose slide is not sufficient for `needs_image` — it is the one keyword
already matched by the type tag `structured_text`, so the hit count stays 1. -/
theorem C9_counterexample :
    determine_image_need (SlideContent.structuredText "Org structure" ["Hello there"]) = false
    ∧ ("structure" : String) ∈ image_keywords
    ∧ containsSub ("structure" : String).data (lowerStr "Org structure").data = true := by
  refine ⟨rfl, by decide, rfl⟩

/-- C7: the image-need decision holds exactly for tables, bullet lists, and
records whose lower-cased rendering contains at least two of the fixed
vocabulary keywords; a prose record with fewer than two hits never needs one. -/
theorem C7_image_need (sc : SlideContent) :
    determine_image_need sc = true ↔
      (ctypeOf sc = "table" ∨ ctypeOf sc = "bullet_list" ∨ 2 ≤ countKeywordHits sc) := by
  cases sc with
  | empty t =>
    have h1 : (("empty" : String) = "table") = False := by simp
    have h2 : (("empty" : String) = "bullet_list") = False := by simp
    simp [determine_image_need, ctypeOf, h1, h2]
  | table t d => simp [determine_image_need, ctypeOf]
  | bulletList t p => simp [determine_image_need, ctypeOf]
  | structuredText t c =>
    have h1 : (("structured_text" : String) = "table") = False := by simp
    have h2 : (("structured_text" : String) = "bullet_list") = False := by simp
    simp [determine_image_need, ctypeOf, h1, h2]

/-- C8: on slide content made of non-empty text blocks (the shape the slide
extractor produces), an empty combined text forces the content list itself to
be empty, and the structuring function short-circuits to the empty variant
with its fixed placeholder title before any classification. -/
theorem C8_empty_short_circuit (content : List String)
    (h : ∀ s ∈ content, s ≠ "") (he : joinNL content = "") :
    analyze_and_structure_text content = Except.ok (SlideContent.empty "Empty Slide") := by
  cases content with
  | nil => rfl
  | cons s rest =>
    exfalso
    cases rest with
    | nil => exact h s (by simp) he
    | cons r rs =>
      have hd := congrArg String.data he
      simp only [joinNL, String.data_append] at hd
      simp at hd

theorem C8_empty_short_circuit_witness :
    analyze_and_structure_text [] = Except.ok (SlideContent.empty "Empty Slide") :=
  C8_empty_short_circuit [] (by simp) rfl

/-- C5: the tabular test runs before the bullet-density test — whenever any
tabular signal matches the joined text of a non-empty content list, the result
is the table variant, whatever the bullet density. -/
theorem C5_tabular_priority (content : List String) (h : content ≠ [])
    (ht : is_tabular_data (joinNL content) = true) :
    analyze_and_structure_text content
      = Except.ok (SlideContent.table (extract_title (content.headD "Data Table"))
          (parse_table_data (joinNL content))) := by
  have hne : content.isEmpty = false := by
    cases content with
    | nil => exact absurd rfl h
    | cons a l => rfl
  unfold analyze_and_structure_text
  rw [hne]
  simp only [Bool.false_eq_true, if_false, ht, if_true]

theorem C5_tabular_priority_witness :
    is_tabular_data (joinNL ["Title", "a | b | c", "- p\n- q\n- r\nx\ny\nz\nw"]) = true
    ∧ has_bullet_points (joinNL ["Title", "a | b | c", "- p\n- q\n- r\nx\ny\nz\nw"]) = true
    ∧ analyze_and_structure_text ["Title", "a | b | c", "- p\n- q\n- r\nx\ny\nz\nw"]
        = Except.ok (SlideContent.table "Title" [["a", "b", "c"]]) := by
  refine ⟨rfl, rfl, ?_⟩
  exact C5_tabular_priority ["Title", "a | b | c", "- p\n- q\n- r\nx\ny\nz\nw"]
    (by simp) rfl

/-- C3 amended: the bullet-density threshold divides the marker-line count by
the total number of lines of the newline split, empty lines included, not by
the number of non-empty lines; the claimed 10-line examples hold as stated
when every line is non-empty (3 markers of 10 stay prose, 4 of 10 become
bulleted). -/
theorem C3_bullet_threshold :
    (∀ text : String,
        has_bullet_points text
          = decide (3 * totalLineCount text < 10 * markerLineCount text))
    ∧ has_bullet_points "- a\n- b\n- c\nd\ne\nf\ng\nh\ni\nj" = false
    ∧ has_bullet_points "- a\n- b\n- c\n- d\ne\nf\ng\nh\ni\nj" = true := by
  refine ⟨?_, rfl, rfl⟩
  intro text
  have hne : splitOnChar '\n' text.data ≠ [] := splitOnChar_ne_nil '\n' text.data
  have hie : (splitOnChar '\n' text.data).isEmpty = false := by
    cases hsp : splitOnChar '\n' text.data with
    | nil => exact absurd hsp hne
    | cons a l => rfl
  simp [has_bullet_points, totalLineCount, markerLineCount, hie]

/-- C2 amended: for every non-empty content list the produced title is
`_extract_title` of the first text block, under every classification outcome;
and the extractor substitutes the one generic label "Key Points" for every
non-empty first line that is long or period-terminated, regardless of the
content kind being titled (the kind-specific defaults of the source are dead
arguments, only reachable from an empty content list). -/
theorem C2_title_rule :
    (∀ (content : List String) (r : SlideContent), content ≠ [] →
        analyze_and_structure_text content = Except.ok r →
        titleOf r = extract_title (content.headD ""))
    ∧ (∀ s : String, s ≠ "" →
        (s.data.length < 80 ∧ endsPeriod s.data = false → extract_title s = s)
        ∧ (¬(s.data.length < 80 ∧ endsPeriod s.data = false) →
            extract_title s = "Key Points")) := by
  constructor
  · intro content r h ha
    cases content with
    | nil => exact absurd rfl h
    | cons f rest =>
      unfold analyze_and_structure_text at ha
      simp only [List.isEmpty_cons, Bool.false_eq_true, if_false] at ha
      by_cases h1 : is_tabular_data (joinNL (f :: rest)) = true
      · rw [if_pos h1] at ha
        cases ha
        rfl
      · rw [if_neg h1] at ha
        by_cases h2 : has_bullet_points (joinNL (f :: rest)) = true
        · rw [if_pos h2] at ha
          cases hbp : extract_bullet_points (joinNL (f :: rest)) with
          | error e => rw [hbp] at ha; cases ha
          | ok pts => rw [hbp] at ha; cases ha; rfl
        · rw [if_neg h2] at ha
          cases ha
          rfl
  · intro s hs
    have hne : ¬(s.data.isEmpty = true) := by
      intro hd
      apply hs
      exact String.ext (by rw [List.isEmpty_iff.1 hd])
    have hcond : ((decide (s.data.length < 80) && !endsPeriod s.data) = true)
        ↔ (s.data.length < 80 ∧ endsPeriod s.data = false) := by
      simp
    constructor
    · intro hp
      unfold extract_title
      rw [if_neg hne, if_pos (hcond.2 hp)]
    · intro hnp
      unfold extract_title
      rw [if_neg hne, if_neg (fun hc => hnp (hcond.1 hc))]

theorem ebpGo_eq (all : List (List Char)) (rest : List (List Char)) :
    ∀ acc : List (List Char),
      ebpGo all rest acc =
        if rest.any (specBadLine all) then Except.error ()
        else Except.ok (acc ++ rest.filterMap (specPointOf all)) := by
  induction rest with
  | nil => intro acc; simp [ebpGo]
  | cons l rest ih =>
    intro acc
    by_cases hb : bulletMarked (pyStripL l) = true
    · have hbad : specBadLine all l = false := by simp [specBadLine, markedAny, hb]
      have hpt : specPointOf all l = some ((pyStripL l).drop 2) := by
        simp [specPointOf, hb]
      simp [ebpGo, hb, ih, hbad, hpt]
    · have hb2 : bulletMarked (pyStripL l) = false := by simpa using hb
      by_cases hn : numMarked (pyStripL l) = true
      · have hbad : specBadLine all l = false := by simp [specBadLine, markedAny, hn]
        have hpt : specPointOf all l
            = some (((pyStripL l).dropWhile Char.isDigit).drop 2) := by
          simp [specPointOf, hb2, hn]
        simp [ebpGo, hb2, hn, ih, hbad, hpt]
      · have hn2 : numMarked (pyStripL l) = false := by simpa using hn
        by_cases hl : letterMarked (pyStripL l) = true
        · have hbad : specBadLine all l = false := by simp [specBadLine, markedAny, hl]
          have hpt : specPointOf all l = some ((pyStripL l).drop 3) := by
            simp [specPointOf, hb2, hn2, hl]
          simp [ebpGo, hb2, hn2, hl, ih, hbad, hpt]
        · have hl2 : letterMarked (pyStripL l) = false := by simpa using hl
          by_cases he : (pyStripL l).isEmpty = true
          · have hbad : specBadLine all l = false := by simp [specBadLine, he]
            have hpt : specPointOf all l = none := by
              simp [specPointOf, hb2, hn2, hl2, he]
            simp [ebpGo, hb2, hn2, hl2, he, ih, hbad, hpt]
          · have he2 : (pyStripL l).isEmpty = false := by simpa using he
            cases hf : all.findIdx? (fun l2 => l2 == pyStripL l) with
            | none =>
              have hbad : specBadLine all l = true := by
                simp [specBadLine, markedAny, hb2, hn2, hl2, he2, hf]
              simp [ebpGo, hb2, hn2, hl2, he2, hf, hbad]
            | some j =>
              by_cases hm : (all.take j).any (fun l2 => markedAny (pyStripL l2)) = true
              · have hbad : specBadLine all l = false := by simp [specBadLine, hf]
                have hpt : specPointOf all l = some (pyStripL l) := by
                  simp [specPointOf, hb2, hn2, hl2, he2, hf, hm]
                simp [ebpGo, hb2, hn2, hl2, he2, hf, hm, ih, hbad, hpt]
              · have hm2 : (all.take j).any (fun l2 => markedAny (pyStripL l2)) = false := by
                  simpa using hm
                have hbad : specBadLine all l = false := by simp [specBadLine, hf]
                have hpt : specPointOf all l = none := by
                  simp [specPointOf, hb2, hn2, hl2, he2, hf, hm2]
                simp [ebpGo, hb2, hn2, hl2, he2, hf, hm2, ih, hbad, hpt]

/-- C4 amended: the bullet parser drops a non-blank unmarked line exactly when
no recognized bullet line occurs before the first occurrence of that line's
trimmed text among the raw lines (so a repeated header text is dropped at
every later position too, and a whitespace-indented unmarked line whose
trimmed text never occurs raw makes the parser raise); on duplicate-free
already-trimmed input this is the header-before-first-bullet rule, and the
claimed example holds. -/
theorem C4_header_rule :
    (∀ text : String, extract_bullet_points text = spec_bullet_points text)
    ∧ extract_bullet_points "Overview\n- Point A\n- Point B"
        = Except.ok ["Point A", "Point B"] := by
  refine ⟨?_, rfl⟩
  intro text
  simp only [extract_bullet_points, spec_bullet_points, ebpGo_eq]
  by_cases hbad : (splitOnChar '\n' text.data).any
      (specBadLine (splitOnChar '\n' text.data)) = true
  · simp [hbad]
  · simp [hbad]

theorem parse_fold_eq (lines : List (List Char)) :
    ∀ acc : List (List (List Char)),
      lines.foldl (fun acc line =>
          if 1 < (rowOfLine line).length then acc ++ [rowOfLine line] else acc) acc
        = acc ++ lines.filterMap (fun line =>
            if 1 < (rowOfLine line).length then some (rowOfLine line) else none) := by
  induction lines with
  | nil => intro acc; simp
  | cons l rest ih =>
    intro acc
    by_cases h : 1 < (rowOfLine l).length
    · simp [h, ih]
    · simp [h, ih]

/-- C6: the table parser agrees everywhere with its declarative description —
drop the first non-blank stripped line, split each remaining line by tab, else
pipe, else a whitespace-run or colon, trim the cells, and keep exactly the
rows with more than one cell — and in particular every produced row has more
than one cell. -/
theorem C6_table_rows :
    (∀ text : String, parse_table_data text = specTableRows text)
    ∧ (∀ (text : String) (row : List String),
        row ∈ parse_table_data text → 1 < row.length) := by
  have hmain : ∀ text : String, parse_table_data text = specTableRows text := by
    intro text
    simp only [parse_table_data, specTableRows, parse_fold_eq, List.nil_append]
    rw [List.map_filterMap]
    congr 1
    funext line
    show (if 1 < (rowOfLine line).length then some (rowOfLine line) else none).map
        (fun r => r.map String.mk)
      = (if 1 < (rowOfLine line).length then some ((rowOfLine line).map String.mk) else none)
    by_cases h : 1 < (rowOfLine line).length
    · simp [h]
    · simp [h]
  refine ⟨hmain, ?_⟩
  intro text row hrow
  rw [hmain] at hrow
  unfold specTableRows at hrow
  rcases List.mem_filterMap.1 hrow with ⟨line, hline, hsome⟩
  rw [show specRowOf line
      = (if 1 < (rowOfLine line).length then some ((rowOfLine line).map String.mk) else none)
    from rfl] at hsome
  by_cases h : 1 < (rowOfLine line).length
  · rw [if_pos h] at hsome
    cases hsome
    simpa using h
  · rw [if_neg h] at hsome
    cases hsome

theorem pyQuote_toNat (s : List Char) :
    (pyQuote s).toNat = 39 ∨ (pyQuote s).toNat = 34 := by
  unfold pyQuote
  split
  · right; rfl
  · left; rfl

theorem pyReprChar_eq_self (q c : Char)
    (hq : q.toNat = 39 ∨ q.toNat = 34)
    (hc : (65 ≤ c.toNat ∧ c.toNat ≤ 90) ∨ (97 ≤ c.toNat ∧ c.toNat ≤ 122)) :
    pyReprChar q c = [c] := by
  have hne : ∀ d : Char, c.toNat ≠ d.toNat → (c == d) = false := fun d hd =>
    beq_eq_false_iff_ne.2 (fun h => hd (congrArg Char.toNat h))
  have h1 : (c == '\\') = false := hne '\\' (by
    show c.toNat ≠ 92
    rcases hc with ⟨ha, hb⟩ | ⟨ha, hb⟩ <;> omega)
  have h2 : (c == q) = false := hne q (by
    rcases hq with h | h <;> rw [h] <;> rcases hc with ⟨ha, hb⟩ | ⟨ha, hb⟩ <;> omega)
  have h3 : (c == '\n') = false := hne '\n' (by
    show c.toNat ≠ 10
    rcases hc with ⟨ha, hb⟩ | ⟨ha, hb⟩ <;> omega)
  have h4 : (c == '\r') = false := hne '\r' (by
    show c.toNat ≠ 13
    rcases hc with ⟨ha, hb⟩ | ⟨ha, hb⟩ <;> omega)
  have h5 : (c == '\t') = false := hne '\t' (by
    show c.toNat ≠ 9
    rcases hc with ⟨ha, hb⟩ | ⟨ha, hb⟩ <;> omega)
  have h6a : ¬(c.toNat < 32) := by rcases hc with ⟨ha, hb⟩ | ⟨ha, hb⟩ <;> omega
  have h6b : (c.toNat == 127) = false := by
    have : c.toNat ≠ 127 := by rcases hc with ⟨ha, hb⟩ | ⟨ha, hb⟩ <;> omega
    simpa using this
  simp [pyReprChar, h1, h2, h3, h4, h5, h6a, h6b]

theorem flatMap_eq_self (f : Char → List Char) :
    ∀ l : List Char, (∀ c ∈ l, f c = [c]) → l.flatMap f = l := by
  intro l
  induction l with
  | nil => intro _; rfl
  | cons c t ih =>
    intro h
    rw [List.flatMap_cons, h c (by simp), ih (fun x hx => h x (by simp [hx]))]
    rfl

theorem lowerChar_mem_range (c : Char)
    (h : 97 ≤ (lowerChar c).toNat ∧ (lowerChar c).toNat ≤ 122) :
    (65 ≤ c.toNat ∧ c.toNat ≤ 90) ∨ (97 ≤ c.toNat ∧ c.toNat ≤ 122) := by
  by_cases hg : (decide (65 ≤ c.toNat) && decide (c.toNat ≤ 90)) = true
  · left
    simpa using hg
  · right
    unfold lowerChar at h
    rw [if_neg hg] at h
    exact h

theorem image_keywords_lower :
    ∀ k ∈ image_keywords, ∀ c ∈ k.data, 97 ≤ c.toNat ∧ c.toNat ≤ 122 := by decide

theorem infix_of_middle (k a b c : List Char) (h : k <:+: a) : k <:+: b ++ a ++ c := by
  obtain ⟨u, v, huv⟩ := h
  exact ⟨b ++ u, v ++ c, by rw [← huv]; simp [List.append_assoc]⟩

theorem keyword_infix_reprStr (k s : String)
    (hk : ∀ c ∈ k.data, 97 ≤ c.toNat ∧ c.toNat ≤ 122)
    (hocc : k.data <:+: (lowerStr s).data) :
    k.data <:+: ((pyReprStr s).data.map lowerChar) := by
  have hocc2 : k.data <:+: s.data.map lowerChar := hocc
  obtain ⟨u, v, huv⟩ := hocc2
  have huv2 : s.data.map lowerChar = u ++ (k.data ++ v) := by
    rw [← huv]; simp [List.append_assoc]
  obtain ⟨l1, l2, hs12, hmapu, hmapkv⟩ := List.map_eq_append_iff.1 huv2
  obtain ⟨b, l3, hl23, hmapk, hmapv⟩ := List.map_eq_append_iff.1 hmapkv
  have hbchars : ∀ c ∈ b, (65 ≤ c.toNat ∧ c.toNat ≤ 90) ∨ (97 ≤ c.toNat ∧ c.toNat ≤ 122) := by
    intro c hc
    apply lowerChar_mem_range
    apply hk
    rw [← hmapk]
    exact List.mem_map_of_mem lowerChar hc
  have hb : b.flatMap (pyReprChar (pyQuote s.data)) = b :=
    flatMap_eq_self _ b (fun c hc =>
      pyReprChar_eq_self (pyQuote s.data) c (pyQuote_toNat s.data) (hbchars c hc))
  set q := pyQuote s.data with hqdef
  have hdata : (pyReprStr s).data
      = q :: s.data.flatMap (pyReprChar q) ++ [q] := rfl
  have hflat : s.data.flatMap (pyReprChar q)
      = l1.flatMap (pyReprChar q) ++ (b ++ l3.flatMap (pyReprChar q)) := by
    rw [hs12, hl23]
    simp [List.flatMap_append, hb, List.append_assoc]
  rw [hdata, hflat]
  refine ⟨lowerChar q :: (l1.flatMap (pyReprChar q)).map lowerChar,
    (l3.flatMap (pyReprChar q)).map lowerChar ++ [lowerChar q], ?_⟩
  rw [← hmapk]
  simp [List.append_assoc]

theorem infix_extend_left (k a b : List Char) (h : k <:+: a) : k <:+: b ++ a := by
  obtain ⟨u, v, huv⟩ := h
  exact ⟨b ++ u, v, by rw [← huv]; simp [List.append_assoc]⟩

theorem infix_extend_right (k a c : List Char) (h : k <:+: a) : k <:+: a ++ c := by
  obtain ⟨u, v, huv⟩ := h
  exact ⟨u, v ++ c, by rw [← huv]; simp [List.append_assoc]⟩

theorem reprStr_in_joinCommaSp (p : String) :
    ∀ ps : List String, p ∈ ps →
      (pyReprStr p).data <:+: (joinCommaSp (ps.map pyReprStr)).data := by
  intro ps
  induction ps with
  | nil => intro h; cases h
  | cons x rest ih =>
    intro h
    rcases List.mem_cons.1 h with rfl | h2
    · cases rest with
      | nil => exact List.infix_rfl
      | cons y ys =>
        refine ⟨[], (", " ++ joinCommaSp ((y :: ys).map pyReprStr)).data, ?_⟩
        show [] ++ (pyReprStr p).data ++ (", " ++ joinCommaSp ((y :: ys).map pyReprStr)).data
          = (joinCommaSp ((p :: y :: ys).map pyReprStr)).data
        rw [show joinCommaSp ((p :: y :: ys).map pyReprStr)
            = pyReprStr p ++ ", " ++ joinCommaSp ((y :: ys).map pyReprStr) from rfl]
        simp [String.data_append, List.append_assoc]
    · cases rest with
      | nil => cases h2
      | cons y ys =>
        obtain ⟨u, v, huv⟩ := ih h2
        refine ⟨(pyReprStr x ++ ", ").data ++ u, v, ?_⟩
        rw [show joinCommaSp ((x :: y :: ys).map pyReprStr)
            = pyReprStr x ++ ", " ++ joinCommaSp ((y :: ys).map pyReprStr) from rfl]
        simp only [String.data_append]
        rw [← huv]
        simp [List.append_assoc]

theorem reprStr_in_reprStrList (p : String) (ps : List String) (hp : p ∈ ps) :
    (pyReprStr p).data <:+: (pyReprStrList ps).data := by
  obtain ⟨u, v, huv⟩ := reprStr_in_joinCommaSp p ps hp
  refine ⟨("[" : String).data ++ u, v ++ ("]" : String).data, ?_⟩
  rw [show pyReprStrList ps = "[" ++ joinCommaSp (ps.map pyReprStr) ++ "]" from rfl]
  simp only [String.data_append]
  rw [← huv]
  simp [List.append_assoc]

theorem pyStr_structuredText_data (t : String) (ps : List String) :
    (pyStr (SlideContent.structuredText t ps)).data
      = ("\x7b\x27type\x27: \x27structured_text\x27, \x27title\x27: " : String).data
        ++ ((pyReprStr t).data
        ++ ((", \x27content\x27: " : String).data
        ++ ((pyReprStrList ps).data ++ ("\x7d" : String).data))) := by
  simp [pyStr, String.data_append, List.append_assoc]

theorem structure_hit_structuredText (t : String) (ps : List String) :
    containsSub ("structure" : String).data
      (lowerStr (pyStr (SlideContent.structuredText t ps))).data = true := by
  rw [containsSub_iff]
  have h0 : ("structure" : String).data <:+:
      (("\x7b\x27type\x27: \x27structured_text\x27, \x27title\x27: " : String).data.map
        lowerChar) := by
    rw [← containsSub_iff]
    decide
  show ("structure" : String).data <:+:
      (pyStr (SlideContent.structuredText t ps)).data.map lowerChar
  rw [pyStr_structuredText_data]
  simp only [List.map_append]
  exact infix_extend_right _ _ _ h0

/-- C9 amended: the image-need predictor renders the whole record, type tag
included, so every prose record carries the guaranteed keyword hit
"structure" from the tag `structured_text`; one occurrence of any other
vocabulary keyword in the slide's actual title or in a paragraph then
suffices for `needs_image`, but an occurrence of "structure" itself adds no
second hit and does not suffice. -/
theorem C9_prose_keyword_rule :
    (∀ (t : String) (ps : List String),
        1 ≤ countKeywordHits (SlideContent.structuredText t ps))
    ∧ (∀ (t : String) (ps : List String) (k : String),
        k ∈ image_keywords → k ≠ "structure" →
        (containsSub k.data (lowerStr t).data = true
          ∨ ∃ p ∈ ps, containsSub k.data (lowerStr p).data = true) →
        determine_image_need (SlideContent.structuredText t ps) = true) := by
  constructor
  · intro t ps
    have hs : ("structure" : String) ∈ image_keywords := by decide
    have hmem : ("structure" : String) ∈ image_keywords.filter
        (fun k => containsSub k.data
          (lowerStr (pyStr (SlideContent.structuredText t ps))).data) :=
      List.mem_filter.2 ⟨hs, structure_hit_structuredText t ps⟩
    exact List.length_pos.2 (List.ne_nil_of_mem hmem)
  · intro t ps k hk hkne hocc
    have hkchars := image_keywords_lower k hk
    have hkhit : containsSub k.data
        (lowerStr (pyStr (SlideContent.structuredText t ps))).data = true := by
      rw [containsSub_iff]
      show k.data <:+: (pyStr (SlideContent.structuredText t ps)).data.map lowerChar
      rw [pyStr_structuredText_data]
      simp only [List.map_append]
      rcases hocc with hocc | ⟨p, hp, hocc⟩
      · have h1 : k.data <:+: (pyReprStr t).data.map lowerChar :=
          keyword_infix_reprStr k t hkchars ((containsSub_iff k.data (lowerStr t).data).1 hocc)
        exact infix_extend_left _ _ _ (infix_extend_right _ _ _ h1)
      · have h1 : k.data <:+: (pyReprStr p).data.map lowerChar :=
          keyword_infix_reprStr k p hkchars ((containsSub_iff k.data (lowerStr p).data).1 hocc)
        have h2 : (pyReprStr p).data.map lowerChar
            <:+: (pyReprStrList ps).data.map lowerChar :=
          (reprStr_in_reprStrList p ps hp).map lowerChar
        exact infix_extend_left _ _ _ (infix_extend_left _ _ _
          (infix_extend_left _ _ _ (infix_extend_right _ _ _ (h1.trans h2))))
    have h2le : 2 ≤ countKeywordHits (SlideContent.structuredText t ps) :=
      two_le_filter_length _ image_keywords "structure" k (by decide) hk
        (fun h => hkne h.symm) (structure_hit_structuredText t ps) hkhit
    have hct : ((ctypeOf (SlideContent.structuredText t ps) == "table")
        || (ctypeOf (SlideContent.structuredText t ps) == "bullet_list")) = false := rfl
    unfold determine_image_need
    rw [hct]
    simp [h2le]
